import Mathlib

/-!
Verification of the ChemAgent tool layer (pubchem_search.py and rxn4chem.py).

The Python source is shallowly embedded:
- PubChem JSON records become inductive trees (`Information`, `Section`,
  `RawSection`); dictionary keys that may be absent become `Option` fields.
- Python `str.strip()` is modelled by `pyStrip` on character lists and
  `str.split(':')` by `pySplitColon`, both matching Python's semantics on
  the characters the code manipulates.
- The retry decorator is modelled as a function of the sequence of outcomes
  of the successive underlying calls, instrumented with the number of calls
  made, so that "one final unguarded call" is an observable statement.
- Float confidences are modelled as rationals (`ℚ`); Python's comparison of
  the literals used here coincides with the rational comparison.
-/

namespace ChemAgent

/-- Whitespace test used to model Python `str.strip()`. -/
def isWS (c : Char) : Bool := c.isWhitespace

/-- Model of Python `str.strip()` on a character list: drop whitespace from
both ends. -/
def pyStrip (l : List Char) : List Char :=
  ((l.dropWhile isWS).reverse.dropWhile isWS).reverse

/-- One entry of a `StringWithMarkup` array: the `String` field and the
optional `Unit` field (markup itself is never read by the code). -/
structure SWMItem where
  string : String
  unit : Option String
deriving DecidableEq

/-- The `Value` dictionary of an information item, keeping exactly the keys
read by `Information.generate_text`: `StringWithMarkup`, `Number`, `Name`,
`Unit`.  Numbers are modelled as integers; the code only converts them with
`str`. -/
structure InfoValue where
  stringWithMarkup : Option (List SWMItem)
  number : Option (List Int)
  name : Option String
  unit : Option String
deriving DecidableEq

/-- An information item (pubchem_search.py line 59): a wrapper around the
dictionary, of which only `Value` is read by rendering. -/
structure Information where
  value : InfoValue
deriving DecidableEq

/-- `Information.generate_text` (pubchem_search.py lines 68-91).  The
`display_controls` argument of the source is never read and is omitted.
Returns `none` where the source returns Python `None`. -/
def Information.generate_text (info : Information) : Option String :=
  let value := info.value
  let text : String :=
    match value.stringWithMarkup with
    | some strings =>
      strings.foldl (fun acc item =>
        acc ++ item.string ++ (match item.unit with
          | some u => " " ++ u
          | none => "") ++ "\n") ""
    | none =>
      match value.number with
      | some nums =>
        (match value.name with
          | some n => n ++ ": "
          | none => "")
        ++ String.intercalate ", " (nums.map toString)
        ++ (match value.unit with
          | some u => " " ++ u
          | none => "")
        ++ "\n"
      | none => ""
  if pyStrip text.toList = [] then none else some text

/-- A constructed section object (pubchem_search.py lines 94-101): nesting
level, title, optional description, optional information list, optional
subsection list.  The stored `display_controls` is never read by any live
code path (the read is commented out in the source) and is omitted. -/
inductive Section where
  | mk (level : Nat) (title : String) (description : Option String)
       (informationList : Option (List Information))
       (subsectionList : Option (List Section))

/-- The loop over `self.information_list` in `Section.generate_text`
(pubchem_search.py lines 141-145): concatenate the non-`None` item texts. -/
def renderInfos : List Information → String
  | [] => ""
  | info :: rest =>
    (match info.generate_text with
      | none => ""
      | some t => t) ++ renderInfos rest

mutual

/-- `Section.generate_text` (pubchem_search.py lines 127-160).  `indices` is
the tuple of dotted-index components; the source's `indices=None` default is
never exercised (every caller passes a tuple).  Returns `none` where the
source returns Python `None`. -/
def Section.generate_text : Section → List String → Option String
  | .mk level title description informationList subsectionList, indices =>
    let titleText :=
      String.replicate level '#' ++ " "
        ++ (if indices.length > 0 then String.intercalate "." indices ++ " " else "")
        ++ title ++ "\n"
        ++ (match description with
            | some d => "Section Description: " ++ d
            | none => "")
        ++ "\n\n"
    let contentText :=
      (match informationList with
        | none => ""
        | some il => renderInfos il)
      ++ (match subsectionList with
          | none => ""
          | some sl => renderSubsections sl indices 1)
    if pyStrip contentText.toList = [] then none
    else some (titleText ++ contentText ++ "\n\n")

/-- The loop over `self.subsection_list` in `Section.generate_text`
(pubchem_search.py lines 147-153): each subsection is rendered with the
parent's indices extended by the current counter `idx`, and `idx` advances
only when the subsection produced output. -/
def renderSubsections : List Section → List String → Nat → String
  | [], _, _ => ""
  | s :: rest, indices, idx =>
    match s.generate_text (indices ++ [toString idx]) with
    | none => renderSubsections rest indices idx
    | some t => t ++ renderSubsections rest indices (idx + 1)

end

/-- The loop of `PubchemStructuredDoc.generate_text` (pubchem_search.py
lines 180-188): render each top-level section with a one-component index,
advancing the index only on non-`None` output. -/
def docLoop : List Section → Nat → String
  | [], _ => ""
  | s :: rest, idx =>
    match s.generate_text [toString idx] with
    | none => docLoop rest idx
    | some t => t ++ docLoop rest (idx + 1)

/-- `PubchemStructuredDoc.generate_text` (pubchem_search.py lines 180-188),
as a function of the document's section list. -/
def PubchemStructuredDoc.generate_text (doc_data : List Section) : String :=
  docLoop doc_data 1

/-- A raw section dictionary as received from the PubChem JSON payload,
keeping the keys the repository reads: `TOCHeading`, `Description`,
`Information`, `Section`. -/
inductive RawSection where
  | mk (tocHeading : String) (description : Option String)
       (information : Option (List Information))
       (subsections : Option (List RawSection))

/-- The `TOCHeading` field of a raw section. -/
def RawSection.tocHeading : RawSection → String
  | .mk t _ _ _ => t

/-- The `Section` field of a raw section. -/
def RawSection.subsections : RawSection → Option (List RawSection)
  | .mk _ _ _ s => s

/-- Replace the `Section` field, as the assignment
`section['Section'] = new_subsection_list` does (pubchem_search.py
line 302). -/
def RawSection.withSubsections : RawSection → Option (List RawSection) → RawSection
  | .mk t d i _, s => .mk t d i s

mutual

/-- `copy.deepcopy` on a raw section (pubchem_search.py line 281): a fresh
structurally identical tree. -/
def RawSection.deepcopy : RawSection → RawSection
  | .mk t d i s => .mk t d i (deepcopyOptList s)

/-- `copy.deepcopy` on an optional raw-section list. -/
def deepcopyOptList : Option (List RawSection) → Option (List RawSection)
  | none => none
  | some l => some (deepcopyList l)

/-- `copy.deepcopy` on a raw-section list. -/
def deepcopyList : List RawSection → List RawSection
  | [] => []
  | s :: rest => s.deepcopy :: deepcopyList rest

end

/-- The fixed `unuseful_section_names` configuration (pubchem_search.py
lines 18-56): a top-level title maps to `none` (the Python `None` sentinel,
remove the whole section) or to the list of child titles to remove (every
child entry of the Python dict maps to `None`). -/
def unuseful_section_names : List (String × Option (List String)) :=
  [("Structures", none),
   ("Chemical Safety", none),
   ("Names and Identifiers",
     some ["Other Identifiers", "Synonyms", "Create Date", "Modify Date"]),
   ("Chemical and Physical Properties", some ["SpringerMaterials Properties"]),
   ("Spectral Information", none),
   ("Related Records", none),
   ("Chemical Vendors", none),
   ("Drug and Medication Information",
     some ["WHO Essential Medicines", "FDA Approved Drugs", "FDA Orange Book",
           "FDA National Drug Code Directory", "FDA Green Book", "Drug Labels",
           "Clinical Trials"]),
   ("Pharmacology and Biochemistry", none),
   ("Use and Manufacturing", none),
   ("Identification", none),
   ("Literature", none),
   ("Patents", none),
   ("Interactions and Pathways", none),
   ("Biological Test Results", none),
   ("Classification", none),
   ("Taxonomy", none)]

/-- The subsection test of pubchem_search.py line 295: the top-level title
is configured with a child-title set and the subsection's title is in that
set.  (The value-`None` case cannot reach this test: such sections were
dropped by the line 287 check.) -/
def unwantedChild (sectionTitle subTitle : String) : Bool :=
  match unuseful_section_names.lookup sectionTitle with
  | some (some children) => children.contains subTitle
  | _ => false

/-- The body of the loop of `remove_unuseful_sections` for one section
(pubchem_search.py lines 286-304): `none` models `continue` (the section is
dropped), `some` the section that is appended to `new_sections`. -/
def keepSection (s : RawSection) : Option RawSection :=
  if unuseful_section_names.lookup s.tocHeading = some none then none
  else
    match s.subsections with
    | none => some s
    | some subs =>
      let newSubs := subs.filter (fun sub => !unwantedChild s.tocHeading sub.tocHeading)
      if newSubs.length = 0 then none
      else some (s.withSubsections (some newSubs))

/-- The loop of `remove_unuseful_sections` over the section list. -/
def filterSections : List RawSection → List RawSection
  | [] => []
  | s :: rest =>
    match keepSection s with
    | none => filterSections rest
    | some s' => s' :: filterSections rest

/-- `PubchemSearch.remove_unuseful_sections` (pubchem_search.py
lines 279-306): deep-copy the input, then keep/prune sections. -/
def remove_unuseful_sections (sections : List RawSection) : List RawSection :=
  filterSections (deepcopyList sections)

/-- Outcome of one call to the function wrapped by `RXN4Chem.retry`: the
call returns a value or raises an exception. -/
inductive CallResult (α ε : Type) where
  | ok (v : α)
  | raise (e : ε)
deriving DecidableEq

/-- Observable behaviour of the wrapped function `newfn`: the value it
returns, or the exception that escapes it uncaught. -/
inductive RetryOutcome (α ε : Type) where
  | ok (v : α)
  | raised (e : ε)
deriving DecidableEq

/-- The `while attempt < times` loop of `RXN4Chem.retry.newfn` (rxn4chem.py
lines 60-72), followed by the final unguarded call of line 72.  `func k` is
the outcome of the k-th call of the underlying function (0-indexed; the
`sleep` and `print` effects are irrelevant to the result and dropped),
`retryable e` is membership of `e` in the decorator's `exceptions`,
`remaining = times - attempt`, and `calls` counts the calls made so far.
The result is paired with the total number of calls. -/
def retryLoop (retryable : ε → Bool) (func : Nat → CallResult α ε) :
    Nat → Nat → RetryOutcome α ε × Nat
  | 0, calls =>
    -- attempt == times: the final call on line 72, outside any try block.
    (match func calls with
      | .ok v => .ok v
      | .raise e => .raised e, calls + 1)
  | remaining + 1, calls =>
    match func calls with
    | .ok v => (.ok v, calls + 1)
    | .raise e =>
      if retryable e then retryLoop retryable func remaining (calls + 1)
      else (.raised e, calls + 1)

/-- `RXN4Chem.retry(times, exceptions)` applied to a function whose k-th
call yields `func k` (rxn4chem.py lines 46-76). -/
def RXN4Chem.retry (times : Nat) (retryable : ε → Bool)
    (func : Nat → CallResult α ε) : RetryOutcome α ε × Nat :=
  retryLoop retryable func times 0

/-- One child of a retrosynthetic path: the code reads only its `smiles`
field (rxn4chem.py line 396). -/
structure RetroChild where
  smiles : String
deriving DecidableEq

/-- A retrosynthetic candidate path: the code reads `children` and
`confidence` (rxn4chem.py lines 392-398).  The float confidence is
modelled as a rational. -/
structure RetroPath where
  children : List RetroChild
  confidence : ℚ
deriving DecidableEq

/-- `Retrosynthesis._get_children_smiles_and_confidence` (rxn4chem.py
lines 392-398). -/
def get_children_smiles_and_confidence (path : RetroPath) : String × ℚ :=
  (String.intercalate "." (path.children.map RetroChild.smiles), path.confidence)

/-- Insert into an already-descending list, after every element with a
strictly larger key and before the first element whose key is not larger;
an element equal in key to `x` therefore stays in front of it. -/
def insertByConfDesc (x : String × ℚ) : List (String × ℚ) → List (String × ℚ)
  | [] => [x]
  | y :: ys => if x.2 < y.2 then y :: insertByConfDesc x ys else x :: y :: ys

/-- `result_list.sort(key=lambda x: x[1], reverse=True)` (rxn4chem.py
line 360): a stable sort by confidence, descending.  Python's stable sort
is modelled by stable insertion sort, which computes the same list. -/
def sortByConfDesc : List (String × ℚ) → List (String × ℚ)
  | [] => []
  | x :: xs => insertByConfDesc x (sortByConfDesc xs)

/-- The numbered-list rendering loop of `Retrosynthesis._run_base`
(rxn4chem.py lines 361-362).  Python's float formatting is abstracted by
`toString` on the rational confidence. -/
def retroLines : Nat → List (String × ℚ) → String
  | _, [] => ""
  | idx, (cs, conf) :: rest =>
    toString idx ++ ".\tReactants: " ++ cs ++ "\tConfidence: " ++ toString conf
      ++ "\n" ++ retroLines (idx + 1) rest

/-- `Retrosynthesis._run_base` (rxn4chem.py lines 344-363) from the fetched
paths onward: header line, per-path extraction, stable descending sort by
confidence, numbered rendering. -/
def retroRunBase (paths : List RetroPath) : String :=
  let header := "There " ++ (if paths.length > 1 then "are" else "is") ++ " "
    ++ toString paths.length ++ " possible sets of reactants for the given product:\n"
  let result_list := paths.map get_children_smiles_and_confidence
  let sorted := sortByConfDesc result_list
  header ++ retroLines 1 sorted

/-- Error kinds raised by `PubchemSearch._run_text` and the code it calls;
messages are elided, only the kind is modelled. -/
inductive ToolError where
  | chemAgentInputError
  | chemAgentSearchError
deriving DecidableEq

/-- Python `query.split(':')` on a character list: split at every colon,
keeping empty parts. -/
def pySplitColon : List Char → List (List Char)
  | [] => [[]]
  | c :: rest =>
    match pySplitColon rest with
    | [] => []
    | p :: ps => if c = ':' then [] :: p :: ps else (c :: p) :: ps

/-- Python `str.lower()` on a character list. -/
def pyLower (l : List Char) : List Char := l.map Char.toLower

/-- `PubchemSearch._run_text` (pubchem_search.py lines 205-223), modelled
up to the remote stage: parsing and namespace normalization happen here,
and only a successfully parsed query reaches `run_base` (the model of
`self._run_base(namespace, identifier)` on line 222, which performs the
identifier validation and the remote lookup).  Exceptions become
`Except.error`; both the inner `ChemAgentInputError`s and the `ValueError`
of the non-2-part unpacking are caught on line 220 and re-raised as
`ChemAgentInputError`. -/
def run_text (run_base : String → String → Except ToolError String)
    (query : String) : Except ToolError String :=
  match pySplitColon query.toList with
  | [nsRaw, identRaw] =>
    let ns := pyStrip nsRaw
    let ident := pyStrip identRaw
    if pyLower ns = "smiles".toList then
      run_base "smiles" (String.mk ident)
    else if pyLower ns = "iupac".toList ∨ pyLower ns = "iupac name".toList then
      run_base "iupac" (String.mk ident)
    else if pyLower ns = "name".toList ∨ pyLower ns = "common name".toList then
      run_base "name" (String.mk ident)
    else
      -- empty namespace and unsupported namespace both raise
      -- ChemAgentInputError (lines 216-219), re-wrapped on line 221.
      .error .chemAgentInputError
  | _ =>
    -- unpacking `namespace, identifier = query.split(':')` raised
    -- ValueError, caught on line 220 and converted on line 221.
    .error .chemAgentInputError

/-! ## Theorems -/

/-- If every call up to the attempt ceiling fails with a retryable
exception, the loop performs exactly one more call past the ceiling and
reports that call's raw outcome. -/
theorem retryLoop_exhaust {α ε : Type} (retryable : ε → Bool)
    (func : Nat → CallResult α ε) (remaining calls : Nat)
    (h : ∀ k, calls ≤ k → k < calls + remaining →
      ∃ e, func k = .raise e ∧ retryable e = true) :
    retryLoop retryable func remaining calls =
      ((match func (calls + remaining) with
        | .ok v => RetryOutcome.ok v
        | .raise e => RetryOutcome.raised e), calls + remaining + 1) := by
  induction remaining generalizing calls with
  | zero =>
    simp only [retryLoop, Nat.add_zero]
    cases func calls <;> rfl
  | succ n ih =>
    obtain ⟨e, he, hr⟩ := h calls (le_refl _) (by omega)
    rw [retryLoop, he]
    simp only [hr, if_true]
    rw [ih (calls + 1) (fun k hk1 hk2 => h k (by omega) (by omega))]
    have harith : calls + 1 + n = calls + (n + 1) := by omega
    rw [harith]

/-- C3: after the `times` guarded attempts have all been exhausted by
retryable failures, `RXN4Chem.retry` makes exactly one final unguarded
call (`times + 1` calls in total), and that call's outcome is passed
through raw: its value is returned, and its exception — retryable or not —
escapes unconverted. -/
theorem claim_C3 {α ε : Type} (times : Nat) (retryable : ε → Bool)
    (func : Nat → CallResult α ε)
    (h : ∀ k, k < times → ∃ e, func k = .raise e ∧ retryable e = true) :
    RXN4Chem.retry times retryable func =
      ((match func times with
        | .ok v => RetryOutcome.ok v
        | .raise e => RetryOutcome.raised e), times + 1) := by
  have := retryLoop_exhaust retryable func times 0
    (fun k _ hk => h k (by omega))
  simpa [RXN4Chem.retry] using this

/-- Witness for C3: with an attempt ceiling of 2 and a function that raises
a retryable exception on every call, the wrapped call makes 3 calls and the
final call's exception escapes. -/
theorem claim_C3_witness :
    RXN4Chem.retry 2 (fun _ : Nat => true) (fun k => CallResult.raise k)
      = (RetryOutcome.raised (α := Nat) 2, 3) :=
  claim_C3 2 (fun _ => true) (fun k => CallResult.raise k)
    (fun k _ => ⟨k, rfl, rfl⟩)

/-- C4: with an attempt ceiling of at least 3, if the first two guarded
calls raise retryable exceptions and the third returns a value, the
wrapped call returns that value (3 calls in total, nothing raised). -/
theorem claim_C4 {α ε : Type} (times : Nat) (h3 : 3 ≤ times)
    (retryable : ε → Bool) (func : Nat → CallResult α ε) (e0 e1 : ε) (v : α)
    (h0 : func 0 = .raise e0) (hr0 : retryable e0 = true)
    (h1 : func 1 = .raise e1) (hr1 : retryable e1 = true)
    (h2 : func 2 = .ok v) :
    RXN4Chem.retry times retryable func = (RetryOutcome.ok v, 3) := by
  obtain ⟨r, rfl⟩ : ∃ r, times = r + 3 := ⟨times - 3, by omega⟩
  show retryLoop retryable func (r + 3) 0 = _
  rw [retryLoop, h0]
  simp only [hr0, if_true]
  rw [retryLoop, h1]
  simp only [hr1, if_true]
  rw [retryLoop, h2]

/-- Witness for C4: ceiling 3, two retryable failures then a success. -/
theorem claim_C4_witness :
    RXN4Chem.retry 3 (fun _ : Nat => true)
      (fun k => if k < 2 then CallResult.raise 0 else CallResult.ok 42)
      = (RetryOutcome.ok 42, 3) :=
  claim_C4 3 (by norm_num) (fun _ => true) _ 0 0 42
    (by norm_num) rfl (by norm_num) rfl (by norm_num)

/-- C9: every query whose namespace token is empty — the colon split yields
exactly two parts and the part before the colon strips to nothing (for
example ": CCO") — fails with `ChemAgentInputError` regardless of the
remote stage `rb`, i.e. before any remote lookup or identifier validation
is reached. -/
theorem claim_C9 (query : String) (nsRaw identRaw : List Char)
    (hsplit : pySplitColon query.toList = [nsRaw, identRaw])
    (hempty : pyStrip nsRaw = []) :
    ∀ rb, run_text rb query = Except.error ToolError.chemAgentInputError := by
  intro rb
  unfold run_text
  rw [hsplit]
  simp only [hempty, pyLower, List.map_nil]
  rw [if_neg (by decide), if_neg (by decide), if_neg (by decide)]

/-- Splitting on every colon yields one part more than the number of
colons. -/
theorem pySplitColon_length (l : List Char) :
    (pySplitColon l).length = l.count ':' + 1 := by
  induction l with
  | nil => rfl
  | cons c rest ih =>
    cases hrec : pySplitColon rest with
    | nil => rw [hrec] at ih; simp at ih
    | cons p ps =>
      rw [hrec] at ih
      by_cases hc : c = ':'
      · simp only [pySplitColon, hrec, hc, if_true, List.count_cons]
        simp only [List.length_cons] at ih ⊢
        simp [ih]
      · simp only [pySplitColon, hrec, if_neg hc, List.count_cons]
        simp only [List.length_cons] at ih ⊢
        simp [ih, hc]

/-- C10: any query containing at least two colon characters fails with
`ChemAgentInputError` regardless of the remote stage `rb` (the whole input
is split on every colon, so the two-way unpacking fails before identifier
validation or any remote call). -/
theorem claim_C10 (query : String) (h : 2 ≤ query.toList.count ':') :
    ∀ rb, run_text rb query = Except.error ToolError.chemAgentInputError := by
  intro rb
  have hlen := pySplitColon_length query.toList
  match hsp : pySplitColon query.toList with
  | [] => unfold run_text; rw [hsp]
  | [a] => unfold run_text; rw [hsp]
  | [a, b] =>
    rw [hsp] at hlen
    simp only [List.length_cons, List.length_nil] at hlen
    omega
  | a :: b :: c :: t => unfold run_text; rw [hsp]

/-- Witness for C10: a namespace followed by an atom-mapped-style
identifier containing a colon is rejected. -/
theorem claim_C10_witness :
    2 ≤ "SMILES: C:1".toList.count ':' ∧
      run_text (fun _ _ => Except.ok "") "SMILES: C:1"
        = Except.error ToolError.chemAgentInputError :=
  ⟨by decide, claim_C10 "SMILES: C:1" (by decide) _⟩

/-- `withSubsections` only changes the `Section` field. -/
theorem RawSection.tocHeading_withSubsections (s : RawSection)
    (o : Option (List RawSection)) : (s.withSubsections o).tocHeading = s.tocHeading := by
  cases s; rfl

/-- Reading back the replaced `Section` field. -/
theorem RawSection.subsections_withSubsections (s : RawSection)
    (o : Option (List RawSection)) : (s.withSubsections o).subsections = o := by
  cases s; rfl

/-- Replacing the `Section` field twice keeps the last value. -/
theorem RawSection.withSubsections_withSubsections (s : RawSection)
    (o o' : Option (List RawSection)) :
    (s.withSubsections o).withSubsections o' = s.withSubsections o' := by
  cases s; rfl

/-- Writing back the field's own value is the identity. -/
theorem RawSection.withSubsections_self (s : RawSection) :
    s.withSubsections s.subsections = s := by
  cases s; rfl

mutual

/-- The deep copy of a raw section is structurally equal to the original
(Python `deepcopy` yields an equal value in a disjoint object graph, so the
caller's input is untouched by the later in-place pruning). -/
theorem RawSection.deepcopy_eq : ∀ s : RawSection, s.deepcopy = s
  | .mk t d i s => by
    rw [RawSection.deepcopy, deepcopyOptList_eq s]

/-- Deep copy of an optional raw-section list is the identity. -/
theorem deepcopyOptList_eq : ∀ o : Option (List RawSection), deepcopyOptList o = o
  | none => rfl
  | some l => by rw [deepcopyOptList, deepcopyList_eq l]

/-- Deep copy of a raw-section list is the identity. -/
theorem deepcopyList_eq : ∀ l : List RawSection, deepcopyList l = l
  | [] => rfl
  | s :: rest => by
    rw [deepcopyList, RawSection.deepcopy_eq s, deepcopyList_eq rest]

end

/-- A section the filter keeps is kept unchanged by a second filtering. -/
theorem keepSection_idem (s s' : RawSection) (h : keepSection s = some s') :
    keepSection s' = some s' := by
  by_cases h1 : unuseful_section_names.lookup s.tocHeading = some none
  · simp [keepSection, h1] at h
  · cases hsub : s.subsections with
    | none =>
      have hs : s' = s := by
        rw [keepSection, if_neg h1, hsub] at h
        exact (Option.some_inj.mp h).symm
      subst hs
      rw [keepSection, if_neg h1, hsub]
    | some subs =>
      rw [keepSection, if_neg h1, hsub] at h
      simp only at h
      by_cases h2 :
          (subs.filter (fun sub => !unwantedChild s.tocHeading sub.tocHeading)).length = 0
      · rw [if_pos h2] at h; exact absurd h (by simp)
      · rw [if_neg h2] at h
        have hs := (Option.some_inj.mp h).symm
        subst hs
        rw [keepSection, RawSection.tocHeading_withSubsections, if_neg h1,
          RawSection.subsections_withSubsections]
        simp only
        have hff :
            (subs.filter (fun sub => !unwantedChild s.tocHeading sub.tocHeading)).filter
              (fun sub => !unwantedChild s.tocHeading sub.tocHeading)
            = subs.filter (fun sub => !unwantedChild s.tocHeading sub.tocHeading) :=
          List.filter_eq_self.mpr (fun a ha => (List.mem_filter.mp ha).2)
        rw [hff, if_neg h2, RawSection.withSubsections_withSubsections]

/-- Filtering the section list twice is the same as filtering it once. -/
theorem filterSections_idem (l : List RawSection) :
    filterSections (filterSections l) = filterSections l := by
  induction l with
  | nil => rfl
  | cons s rest ih =>
    rw [filterSections]
    cases hk : keepSection s with
    | none => exact ih
    | some s' =>
      rw [filterSections, keepSection_idem s s' hk, ih]

/-- C5: the section filter is idempotent, and the deep copy it starts from
is structurally equal to the caller's input — the in-place pruning happens
on that copy only, so the caller's list is left unchanged. -/
theorem claim_C5 (l : List RawSection) :
    remove_unuseful_sections (remove_unuseful_sections l) = remove_unuseful_sections l
      ∧ deepcopyList l = l := by
  refine ⟨?_, deepcopyList_eq l⟩
  unfold remove_unuseful_sections
  rw [deepcopyList_eq l, deepcopyList_eq (filterSections l)]
  exact filterSections_idem l

/-- A top-level section whose title is not configured and whose subsection
array, when present, is non-empty is kept verbatim. -/
theorem keepSection_untouched (s : RawSection)
    (h1 : unuseful_section_names.lookup s.tocHeading = none)
    (h2 : s.subsections ≠ some []) : keepSection s = some s := by
  rw [keepSection, if_neg (by rw [h1]; exact fun hc => Option.noConfusion hc)]
  cases hsub : s.subsections with
  | none => rfl
  | some subs =>
    simp only
    have hall : subs.filter (fun sub => !unwantedChild s.tocHeading sub.tocHeading) = subs :=
      List.filter_eq_self.mpr (fun a _ => by simp [unwantedChild, h1])
    rw [hall]
    have hne : subs ≠ [] := fun hnil => h2 (by rw [hsub, hnil])
    rw [if_neg (by simpa [List.length_eq_zero] using hne)]
    rw [← hsub, RawSection.withSubsections_self]

/-- `filterSections` distributes over append. -/
theorem filterSections_append (l1 l2 : List RawSection) :
    filterSections (l1 ++ l2) = filterSections l1 ++ filterSections l2 := by
  induction l1 with
  | nil => rfl
  | cons s rest ih =>
    rw [List.cons_append, filterSections, filterSections]
    cases keepSection s with
    | none => exact ih
    | some s' => rw [ih]; rfl

/-- C6 (amended): a top-level section whose title is not in the
configuration *and whose `Section` array, if present, is non-empty* passes
through the filter unchanged, at its position among the other surviving
sections.  (The unamended claim fails on a section with an empty `Section`
array, see the counterexample.) -/
theorem claim_C6 (l1 l2 : List RawSection) (s : RawSection)
    (h1 : unuseful_section_names.lookup s.tocHeading = none)
    (h2 : s.subsections ≠ some []) :
    remove_unuseful_sections (l1 ++ s :: l2)
      = remove_unuseful_sections l1 ++ s :: remove_unuseful_sections l2 := by
  unfold remove_unuseful_sections
  rw [deepcopyList_eq, deepcopyList_eq, deepcopyList_eq, filterSections_append,
    filterSections, keepSection_untouched s h1 h2]

/-- Counterexample to C6 as stated: the title "Food Additives" does not
appear in the configuration, yet a raw section with that title and an empty
`Section` array is dropped entirely by the filter (pubchem_search.py
lines 299-300 drop any section whose filtered child list is empty, whether
or not its title is configured). -/
theorem claim_C6_counterexample :
    unuseful_section_names.lookup "Food Additives" = none ∧
      remove_unuseful_sections [RawSection.mk "Food Additives" none none (some [])]
        = [] :=
  ⟨rfl, rfl⟩

/-- Witness for C6: a section with an unconfigured title and no `Section`
key passes through unchanged. -/
theorem claim_C6_witness :
    remove_unuseful_sections [RawSection.mk "Food Additives" none none none]
      = [RawSection.mk "Food Additives" none none none] := by
  have h := claim_C6 [] [] (RawSection.mk "Food Additives" none none none)
    rfl (by rw [RawSection.subsections]; exact fun hc => Option.noConfusion hc)
  simpa using h

/-- `toList` distributes over string append. -/
theorem toList_append (a b : String) : (a ++ b).toList = a.toList ++ b.toList := by
  cases a; cases b; rfl

/-- A list containing a non-whitespace character does not strip to
nothing. -/
theorem pyStrip_ne_nil_of_mem (l : List Char) (c : Char) (hc : c ∈ l)
    (hw : isWS c = false) : pyStrip l ≠ [] := by
  intro h
  unfold pyStrip at h
  rw [List.reverse_eq_nil_iff, List.dropWhile_eq_nil_iff] at h
  have hcd : c ∈ l.dropWhile isWS := by
    have hsplit := List.takeWhile_append_dropWhile isWS l
    rw [← hsplit] at hc
    rcases List.mem_append.mp hc with h1 | h2
    · exact absurd (List.mem_takeWhile_imp h1) (by simp [hw])
    · exact h2
  exact absurd (h c (List.mem_reverse.mpr hcd)) (by simp [hw])

/-- C8: an information item whose value has only a `Number` list together
with a `Name` and a `Unit` renders to exactly
name, colon-space, the comma-space-joined numbers, a space, the unit, and
one final line break. -/
theorem claim_C8 (nm u : String) (nums : List Int) :
    Information.generate_text ⟨⟨none, some nums, some nm, some u⟩⟩
      = some (nm ++ ": " ++ String.intercalate ", " (nums.map toString)
          ++ " " ++ u ++ "\n") := by
  have hmem : ':' ∈ (nm ++ ": " ++ String.intercalate ", " (nums.map toString)
      ++ (" " ++ u) ++ "\n").toList := by
    have hin : ':' ∈ ": ".toList := by decide
    simp only [toList_append, List.mem_append]
    tauto
  unfold Information.generate_text
  simp only
  rw [if_neg (pyStrip_ne_nil_of_mem _ ':' hmem (by decide))]
  rw [String.append_assoc (nm ++ ": " ++ String.intercalate ", " (nums.map toString)) " " u]

/-- If every information item renders to `None`, the item loop contributes
nothing. -/
theorem renderInfos_eq_empty (il : List Information)
    (h : ∀ i ∈ il, i.generate_text = none) : renderInfos il = "" := by
  induction il with
  | nil => rfl
  | cons i rest ih =>
    rw [renderInfos, h i (List.mem_cons_self i rest),
      ih (fun j hj => h j (List.mem_cons_of_mem i hj))]
    rfl

/-- If every subsection renders to `None`, the subsection loop contributes
nothing, whatever the indices and counter. -/
theorem renderSubsections_eq_empty (sl : List Section)
    (h : ∀ c ∈ sl, ∀ ind, c.generate_text ind = none) :
    ∀ ind idx, renderSubsections sl ind idx = "" := by
  induction sl with
  | nil => intro ind idx; rfl
  | cons c rest ih =>
    intro ind idx
    rw [renderSubsections, h c (List.mem_cons_self c rest) (ind ++ [toString idx])]
    exact ih (fun d hd => h d (List.mem_cons_of_mem c hd)) ind idx

/-- A section whose items all render to `None` and whose subsections all
render to `None` renders to `None` itself, whatever its description and at
whatever index path. -/
theorem generate_text_none_of_empty (level : Nat) (title : String)
    (description : Option String) (infoL : Option (List Information))
    (subL : Option (List Section))
    (hinfo : ∀ il, infoL = some il → ∀ i ∈ il, i.generate_text = none)
    (hsub : ∀ sl, subL = some sl → ∀ c ∈ sl, ∀ ind, c.generate_text ind = none)
    (indices : List String) :
    Section.generate_text (.mk level title description infoL subL) indices = none := by
  cases infoL with
  | none =>
    cases subL with
    | none => rfl
    | some sl =>
      have h2 := renderSubsections_eq_empty sl (hsub sl rfl) indices 1
      simp only [Section.generate_text, h2]
      rfl
  | some il =>
    have h1 := renderInfos_eq_empty il (hinfo il rfl)
    cases subL with
    | none =>
      simp only [Section.generate_text, h1]
      rfl
    | some sl =>
      have h2 := renderSubsections_eq_empty sl (hsub sl rfl) indices 1
      simp only [Section.generate_text, h1, h2]
      rfl

/-- A subsection that renders to `None` contributes nothing to its parent's
output and does not advance the sibling counter, whatever its position. -/
theorem renderSubsections_skip (s : Section)
    (hs : ∀ ind, s.generate_text ind = none) :
    ∀ (pre post : List Section) (ind : List String) (idx : Nat),
      renderSubsections (pre ++ s :: post) ind idx
        = renderSubsections (pre ++ post) ind idx := by
  intro pre
  induction pre with
  | nil =>
    intro post ind idx
    rw [List.nil_append, List.nil_append, renderSubsections,
      hs (ind ++ [toString idx])]
  | cons p pre' ih =>
    intro post ind idx
    rw [List.cons_append, List.cons_append, renderSubsections, renderSubsections]
    cases p.generate_text (ind ++ [toString idx]) with
    | none => exact ih post ind idx
    | some t => rw [ih post ind (idx + 1)]

/-- A top-level section that renders to `None` contributes nothing to the
document's output and does not advance the document counter. -/
theorem docLoop_skip (s : Section) (hs : ∀ ind, s.generate_text ind = none) :
    ∀ (pre post : List Section) (idx : Nat),
      docLoop (pre ++ s :: post) idx = docLoop (pre ++ post) idx := by
  intro pre
  induction pre with
  | nil =>
    intro post idx
    rw [List.nil_append, List.nil_append, docLoop, hs [toString idx]]
  | cons p pre' ih =>
    intro post idx
    rw [List.cons_append, List.cons_append, docLoop, docLoop]
    cases p.generate_text [toString idx] with
    | none => exact ih post idx
    | some t => rw [ih post (idx + 1)]

/-- C1: a section whose items render no text and whose child sections all
render empty produces no output at all — heading and description included —
at every index path, and is entirely absent from its parent's subsection
output and from the document output, without advancing the sibling
counter. -/
theorem claim_C1 (level : Nat) (title : String) (description : Option String)
    (infoL : Option (List Information)) (subL : Option (List Section))
    (hinfo : ∀ il, infoL = some il → ∀ i ∈ il, i.generate_text = none)
    (hsub : ∀ sl, subL = some sl → ∀ c ∈ sl, ∀ ind, c.generate_text ind = none) :
    (∀ indices,
      Section.generate_text (.mk level title description infoL subL) indices = none)
    ∧ (∀ pre post ind idx,
        renderSubsections (pre ++ Section.mk level title description infoL subL :: post)
            ind idx
          = renderSubsections (pre ++ post) ind idx)
    ∧ (∀ pre post idx,
        docLoop (pre ++ Section.mk level title description infoL subL :: post) idx
          = docLoop (pre ++ post) idx) := by
  have hnone := generate_text_none_of_empty level title description infoL subL hinfo hsub
  exact ⟨hnone,
    fun pre post ind idx => renderSubsections_skip _ hnone pre post ind idx,
    fun pre post idx => docLoop_skip _ hnone pre post idx⟩

/-- Witness for C1: a depth-2 section with a description, one empty
information item and one empty child section renders to `None` and
disappears from the document loop. -/
theorem claim_C1_witness :
    Section.generate_text
        (.mk 2 "Viscosity" (some "a description")
          (some [⟨⟨none, none, none, none⟩⟩]) (some [.mk 3 "Sub" none none none]))
        ["1", "2"] = none
    ∧ docLoop
        [Section.mk 2 "Viscosity" (some "a description")
          (some [⟨⟨none, none, none, none⟩⟩]) (some [.mk 3 "Sub" none none none])] 1
      = docLoop [] 1 := by
  have h := claim_C1 2 "Viscosity" (some "a description")
    (some [⟨⟨none, none, none, none⟩⟩]) (some [.mk 3 "Sub" none none none])
    (fun il hil => by
      cases hil
      intro i hi
      rw [List.mem_singleton] at hi
      subst hi
      rfl)
    (fun sl hsl => by
      cases hsl
      intro c hc
      rw [List.mem_singleton] at hc
      subst hc
      exact generate_text_none_of_empty 3 "Sub" none none none
        (fun il h' => Option.noConfusion h') (fun sl' h' => Option.noConfusion h'))
  exact ⟨h.1 ["1", "2"], h.2.2 [] [] 1⟩

/-- C2: dense numbering — a sibling that renders empty does not advance the
dotted index, anywhere in the tree; at the document level, if the first and
third sections render non-empty and the second renders empty, the output is
the first section numbered "1" followed by the third numbered "2". -/
theorem claim_C2 :
    (∀ (pre post : List Section) (s : Section) (ind : List String) (idx : Nat),
        (∀ i2, s.generate_text i2 = none) →
        renderSubsections (pre ++ s :: post) ind idx
          = renderSubsections (pre ++ post) ind idx)
    ∧ (∀ (s1 s2 s3 : Section) (t1 t3 : String),
        s1.generate_text ["1"] = some t1 →
        (∀ ind, s2.generate_text ind = none) →
        s3.generate_text ["2"] = some t3 →
        PubchemStructuredDoc.generate_text [s1, s2, s3] = t1 ++ t3) := by
  constructor
  · intro pre post s ind idx hs
    exact renderSubsections_skip s hs pre post ind idx
  · intro s1 s2 s3 t1 t3 h1 h2 h3
    have e1 : (toString (1 : Nat)) = "1" := rfl
    have e2 : (toString ((1 : Nat) + 1)) = "2" := rfl
    simp only [PubchemStructuredDoc.generate_text, docLoop, e1, e2, h1, h2, h3]
    rw [String.append_empty]

/-- Witness for C2: with section "A" rendering non-empty, "B" rendering
empty (description only) and "C" rendering non-empty, the document is "A"
numbered 1 followed by "C" numbered 2. -/
theorem claim_C2_witness :
    PubchemStructuredDoc.generate_text
        [Section.mk 1 "A" none (some [⟨⟨none, some [3], none, none⟩⟩]) none,
         Section.mk 1 "B" (some "only a description") none none,
         Section.mk 1 "C" none (some [⟨⟨none, some [5], none, none⟩⟩]) none]
      = "# 1 A\n\n\n3\n\n\n" ++ "# 2 C\n\n\n5\n\n\n" :=
  claim_C2.2
    (Section.mk 1 "A" none (some [⟨⟨none, some [3], none, none⟩⟩]) none)
    (Section.mk 1 "B" (some "only a description") none none)
    (Section.mk 1 "C" none (some [⟨⟨none, some [5], none, none⟩⟩]) none)
    "# 1 A\n\n\n3\n\n\n" "# 2 C\n\n\n5\n\n\n"
    (by rfl)
    (generate_text_none_of_empty 1 "B" (some "only a description") none none
      (fun il h' => Option.noConfusion h') (fun sl' h' => Option.noConfusion h'))
    (by rfl)

/-- Membership in the result of a descending insertion. -/
theorem mem_insertByConfDesc (x a : String × ℚ) (l : List (String × ℚ)) :
    a ∈ insertByConfDesc x l ↔ a = x ∨ a ∈ l := by
  induction l with
  | nil => simp [insertByConfDesc]
  | cons y ys ih =>
    rw [insertByConfDesc]
    by_cases h : x.2 < y.2
    · rw [if_pos h]
      simp only [List.mem_cons, ih]
      tauto
    · rw [if_neg h]
      simp only [List.mem_cons]

/-- Descending insertion preserves the non-increasing-confidence
invariant. -/
theorem pairwise_insertByConfDesc (x : String × ℚ) (l : List (String × ℚ))
    (hl : l.Pairwise (fun a b => b.2 ≤ a.2)) :
    (insertByConfDesc x l).Pairwise (fun a b => b.2 ≤ a.2) := by
  induction l with
  | nil => simp [insertByConfDesc]
  | cons y ys ih =>
    rw [List.pairwise_cons] at hl
    obtain ⟨hy, hys⟩ := hl
    rw [insertByConfDesc]
    by_cases h : x.2 < y.2
    · rw [if_pos h, List.pairwise_cons]
      refine ⟨fun a ha => ?_, ih hys⟩
      rcases (mem_insertByConfDesc x a ys).mp ha with rfl | hmem
      · exact le_of_lt h
      · exact hy a hmem
    · rw [if_neg h, List.pairwise_cons]
      refine ⟨fun a ha => ?_, List.pairwise_cons.mpr ⟨hy, hys⟩⟩
      rcases List.mem_cons.mp ha with rfl | hmem
      · exact le_of_not_lt h
      · exact le_trans (hy a hmem) (le_of_not_lt h)

/-- The result list of the stable descending sort is ordered by
non-increasing confidence. -/
theorem sortByConfDesc_pairwise (l : List (String × ℚ)) :
    (sortByConfDesc l).Pairwise (fun a b => b.2 ≤ a.2) := by
  induction l with
  | nil => simp [sortByConfDesc]
  | cons x xs ih => exact pairwise_insertByConfDesc x _ ih

/-- C7: the single-step retrosynthesis result list is sorted by confidence
in descending (non-increasing) order before numbering; concretely, for
three candidate paths with confidences 0.5, 0.9 and 0.7 the sorted list is
the 0.9 path first, then 0.7, then 0.5, and the rendered output numbers
them from 1 in exactly that order. -/
theorem claim_C7 :
    (∀ paths : List RetroPath,
      (sortByConfDesc (paths.map get_children_smiles_and_confidence)).Pairwise
        (fun a b => b.2 ≤ a.2))
    ∧ (∀ p1 p2 p3 : RetroPath,
        p1.confidence = 1/2 → p2.confidence = 9/10 → p3.confidence = 7/10 →
        sortByConfDesc ([p1, p2, p3].map get_children_smiles_and_confidence)
          = [get_children_smiles_and_confidence p2,
             get_children_smiles_and_confidence p3,
             get_children_smiles_and_confidence p1]
        ∧ retroRunBase [p1, p2, p3]
          = "There are 3 possible sets of reactants for the given product:\n"
            ++ retroLines 1
                [get_children_smiles_and_confidence p2,
                 get_children_smiles_and_confidence p3,
                 get_children_smiles_and_confidence p1]) := by
  constructor
  · intro paths
    exact sortByConfDesc_pairwise _
  · intro p1 p2 p3 h1 h2 h3
    have k1 : ¬ ((get_children_smiles_and_confidence p2).2
        < (get_children_smiles_and_confidence p3).2) := by
      show ¬ (p2.confidence < p3.confidence)
      rw [h2, h3]; norm_num
    have k2 : (get_children_smiles_and_confidence p1).2
        < (get_children_smiles_and_confidence p2).2 := by
      show p1.confidence < p2.confidence
      rw [h1, h2]; norm_num
    have k3 : (get_children_smiles_and_confidence p1).2
        < (get_children_smiles_and_confidence p3).2 := by
      show p1.confidence < p3.confidence
      rw [h1, h3]; norm_num
    have hsort :
        sortByConfDesc ([p1, p2, p3].map get_children_smiles_and_confidence)
          = [get_children_smiles_and_confidence p2,
             get_children_smiles_and_confidence p3,
             get_children_smiles_and_confidence p1] := by
      simp only [List.map_cons, List.map_nil, sortByConfDesc, insertByConfDesc]
      rw [if_neg k1]
      simp only [insertByConfDesc]
      rw [if_pos k2, if_pos k3]
    refine ⟨hsort, ?_⟩
    simp only [retroRunBase]
    rw [hsort, show ([p1, p2, p3] : List RetroPath).length = 3 from rfl]
    rfl

/-- Witness for C7: three concrete paths with confidences 1/2, 9/10, 7/10
sort as 9/10, 7/10, 1/2 and render in that order. -/
theorem claim_C7_witness :
    sortByConfDesc
        ([RetroPath.mk [RetroChild.mk "CC=O"] (1/2),
          RetroPath.mk [RetroChild.mk "CCO"] (9/10),
          RetroPath.mk [RetroChild.mk "CO"] (7/10)].map
          get_children_smiles_and_confidence)
      = [get_children_smiles_and_confidence (RetroPath.mk [RetroChild.mk "CCO"] (9/10)),
         get_children_smiles_and_confidence (RetroPath.mk [RetroChild.mk "CO"] (7/10)),
         get_children_smiles_and_confidence (RetroPath.mk [RetroChild.mk "CC=O"] (1/2))]
    ∧ retroRunBase
        [RetroPath.mk [RetroChild.mk "CC=O"] (1/2),
         RetroPath.mk [RetroChild.mk "CCO"] (9/10),
         RetroPath.mk [RetroChild.mk "CO"] (7/10)]
      = "There are 3 possible sets of reactants for the given product:\n"
        ++ retroLines 1
            [get_children_smiles_and_confidence (RetroPath.mk [RetroChild.mk "CCO"] (9/10)),
             get_children_smiles_and_confidence (RetroPath.mk [RetroChild.mk "CO"] (7/10)),
             get_children_smiles_and_confidence (RetroPath.mk [RetroChild.mk "CC=O"] (1/2))] :=
  claim_C7.2 (RetroPath.mk [RetroChild.mk "CC=O"] (1/2))
    (RetroPath.mk [RetroChild.mk "CCO"] (9/10))
    (RetroPath.mk [RetroChild.mk "CO"] (7/10)) rfl rfl rfl

/-- Witness for C5 at a concrete section list. -/
theorem claim_C5_witness :
    remove_unuseful_sections
        (remove_unuseful_sections
          [RawSection.mk "Structures" none none none,
           RawSection.mk "Solubility" none none none])
      = remove_unuseful_sections
          [RawSection.mk "Structures" none none none,
           RawSection.mk "Solubility" none none none]
    ∧ deepcopyList
        [RawSection.mk "Structures" none none none,
         RawSection.mk "Solubility" none none none]
      = [RawSection.mk "Structures" none none none,
         RawSection.mk "Solubility" none none none] :=
  claim_C5 [RawSection.mk "Structures" none none none,
    RawSection.mk "Solubility" none none none]

/-- Witness for C8 at a concrete item: name "LogP", numbers 3 and -1,
unit "g/mol". -/
theorem claim_C8_witness :
    Information.generate_text ⟨⟨none, some [3, -1], some "LogP", some "g/mol"⟩⟩
      = some ("LogP" ++ ": " ++ String.intercalate ", " (([3, -1] : List Int).map toString)
          ++ " " ++ "g/mol" ++ "\n") :=
  claim_C8 "LogP" "g/mol" [3, -1]

/-- Witness for C9: the input ": CCO" splits into an empty namespace part
and " CCO", and fails with the input error at a concrete remote stage. -/
theorem claim_C9_witness :
    run_text (fun _ _ => Except.ok "doc") ": CCO"
      = Except.error ToolError.chemAgentInputError :=
  claim_C9 ": CCO" [] [' ', 'C', 'C', 'O'] (by decide) (by decide)
    (fun _ _ => Except.ok "doc")

end ChemAgent
